import Mathlib

/-!
Verification of the pi-opensync-plugin event-to-payload pipeline.

Shallow embedding of the plugin's content model, session-state accumulator
(`src/state.ts`), payload transformer (`src/transform.ts`), sync client
(`src/client.ts`) and event orchestrator (`src/index.ts`).  TypeScript
numbers are modelled as `Int` for token/message counters and timestamps and
as `Rat` for costs; JavaScript string falsiness (`""` is falsy) is modelled
explicitly where the source relies on it.
-/

namespace PiOpensync

/-! ## Content model (transform.ts / client.ts type definitions) -/

/-- `TextContent | ImageContent`: user-visible content parts. -/
inductive UserContentPart where
  | text (text : String)
  | image (data mimeType : String)
deriving Repr, DecidableEq

/-- `TextContent | ThinkingContent | ToolCallContent`: assistant content parts.
`arguments : unknown` is carried opaquely as a string. -/
inductive AssistantContentPart where
  | text (text : String)
  | thinking (thinking : String)
  | toolCall (id name arguments : String)
deriving Repr, DecidableEq

/-- Usage attached to an assistant message: `{input, output, cost: {total}}`.
The transformer reads `input`/`output`; `SessionState.updateUsage` also reads
`cost.total`. -/
structure Usage where
  input : Int
  output : Int
  costTotal : Rat
deriving Repr, DecidableEq

/-- `AssistantMessageLike` from transform.ts. -/
structure AssistantMessageLike where
  content : List AssistantContentPart
  model : String
  timestamp : Int
  usage : Option Usage
deriving Repr, DecidableEq

/-- `ToolResultMessageLike` from transform.ts (also the shape client.ts reads
from its `ToolResultData`). -/
structure ToolResultMessageLike where
  toolName : String
  content : List UserContentPart
deriving Repr, DecidableEq

/-- `MessagePart` of the wire payload: `type ∈ text, tool-call, tool-result,
thinking` with the content each variant carries. -/
inductive MessagePart where
  | text (content : String)
  | toolCall (toolName : String) (args : String)
  | toolResult (content : String)
  | thinking (content : String)
deriving Repr, DecidableEq

/-- `MessagePayload` of the wire format; optional fields are `Option`
(`none` = key omitted from the JSON body). -/
structure MessagePayload where
  sessionExternalId : String
  externalId : String
  role : String
  textContent : Option String
  model : Option String
  promptTokens : Option Int
  completionTokens : Option Int
  createdAt : Option Int
  parts : Option (List MessagePart)
deriving Repr, DecidableEq

/-- `SessionPayload` of the wire format. -/
structure SessionPayload where
  externalId : String
  source : String
  title : Option String
  projectPath : Option String
  projectName : Option String
  model : Option String
  provider : Option String
  promptTokens : Option Int
  completionTokens : Option Int
  totalTokens : Option Int
  cost : Option Rat
  durationMs : Option Int
  messageCount : Option Int
deriving Repr, DecidableEq

/-! ## SessionState (src/state.ts, class revision) -/

/-- Models `node:path`'s `basename` for the POSIX paths this plugin sees:
the last nonempty `/`-separated component (the path itself when there is
none, matching `basename("/") = "/"` and `basename("") = ""`). -/
def basename (p : String) : String :=
  match ((p.splitOn "/").filter (fun s => s != "")).getLast? with
  | some s => s
  | none => p

/-- Model/provider pair delivered by the host runtime. -/
structure ModelInfo where
  id : String
  provider : String
deriving Repr, DecidableEq

/-- `SessionState`: the mutable per-session accumulator. -/
structure SessionState where
  externalId : String
  parentExternalId : Option String
  projectPath : String
  projectName : String
  startedAt : Int
  model : Option String
  provider : Option String
  promptTokens : Int
  completionTokens : Int
  cost : Rat
  messageCount : Int
  toolCallCount : Int
deriving Repr, DecidableEq

/-- The `SessionState` constructor: zeroed counters, `projectName`
derived from the working directory, `startedAt` the current time. -/
def SessionState.create (sessionId cwd : String) (model : Option ModelInfo)
    (parentExternalId : Option String) (now : Int) : SessionState where
  externalId := sessionId
  parentExternalId := parentExternalId
  projectPath := cwd
  projectName := basename cwd
  startedAt := now
  model := model.map (·.id)
  provider := model.map (·.provider)
  promptTokens := 0
  completionTokens := 0
  cost := 0
  messageCount := 0
  toolCallCount := 0

/-- `updateUsage`: adds the usage delta onto the accumulators. -/
def SessionState.updateUsage (s : SessionState) (u : Usage) : SessionState :=
  { s with
    promptTokens := s.promptTokens + u.input
    completionTokens := s.completionTokens + u.output
    cost := s.cost + u.costTotal }

/-- `incrementMessageCount`: `this.messageCount++`. -/
def SessionState.incrementMessageCount (s : SessionState) : SessionState :=
  { s with messageCount := s.messageCount + 1 }

/-- `incrementToolCallCount(count)`: adds the number of tool calls found in a
turn. Every call site passes `countToolCalls(...)`, a list-filter length, so
the count is a natural number. -/
def SessionState.incrementToolCallCount (s : SessionState) (count : Nat) : SessionState :=
  { s with toolCallCount := s.toolCallCount + count }

/-- `updateModel`: overwrite model/provider. -/
def SessionState.updateModel (s : SessionState) (m : ModelInfo) : SessionState :=
  { s with model := some m.id, provider := some m.provider }

/-- `generateMessageId(role)`: the deterministic id
`externalId + "-" + role + "-" + messageCount`. -/
def SessionState.generateMessageId (s : SessionState) (role : String) : String :=
  s.externalId ++ "-" ++ role ++ "-" ++ toString s.messageCount

/-- `updateSessionUsage` from the functional revision of state.ts: the same
non-negative-delta addition as `SessionState.updateUsage`, returning a copy. -/
def updateSessionUsage (s : SessionState) (u : Usage) : SessionState :=
  { s with
    promptTokens := s.promptTokens + u.input
    completionTokens := s.completionTokens + u.output
    cost := s.cost + u.costTotal }

/-! ## PayloadTransformer (src/transform.ts, current revision) -/

/-- `sessionName || "Untitled"` style JavaScript string defaulting:
an absent or empty string falls back to the default. -/
def jsOr (s : Option String) (dflt : String) : String :=
  match s with
  | some v => if v == "" then dflt else v
  | none => dflt

/-- `generateSessionTitle`: `sessionName || "Untitled"`, then a fork marker
from the first 8 characters of the parent id when `state.parentExternalId`
is truthy (JS: `undefined` and `""` are falsy). -/
def generateSessionTitle (state : SessionState) (sessionName : Option String) : String :=
  let title := jsOr sessionName "Untitled"
  match state.parentExternalId with
  | some pid => if pid == "" then title else "[Fork::" ++ pid.take 8 ++ "] " ++ title
  | none => title

/-- JS truthiness guard `if (x) payload.f = x` for an optional string field. -/
def jsTruthyOpt (o : Option String) : Option String :=
  match o with
  | some s => if s == "" then none else some s
  | none => none

/-- `transformSession(state, sessionName?, isFinal)`: the session payload.
`now` stands for `Date.now()` at the call. -/
def transformSession (state : SessionState) (sessionName : Option String)
    (isFinal : Bool) (now : Int) : SessionPayload :=
  let title := generateSessionTitle state sessionName
  { externalId := state.externalId
    source := "pi"
    title := if title == "" then none else some title
    projectPath := some state.projectPath
    projectName := some state.projectName
    model := jsTruthyOpt state.model
    provider := jsTruthyOpt state.provider
    promptTokens :=
      if state.promptTokens > 0 ∨ state.completionTokens > 0 then some state.promptTokens else none
    completionTokens :=
      if state.promptTokens > 0 ∨ state.completionTokens > 0 then some state.completionTokens else none
    totalTokens :=
      if state.promptTokens > 0 ∨ state.completionTokens > 0 then
        some (state.promptTokens + state.completionTokens)
      else none
    cost := if state.cost > 0 then some state.cost else none
    durationMs := if isFinal then some (now - state.startedAt) else none
    messageCount := if state.messageCount > 0 then some state.messageCount else none }

/-- `string | UserContentPart[]`: the two shapes of a user message's content. -/
inductive UserMessageContent where
  | str (s : String)
  | parts (ps : List UserContentPart)
deriving Repr, DecidableEq

/-- `extractUserMessageText`: the string itself, or the text parts joined
with newlines (images skipped). -/
def extractUserMessageText : UserMessageContent → String
  | .str s => s
  | .parts ps =>
      String.intercalate "\n" (ps.filterMap fun part =>
        match part with
        | .text t => some t
        | .image _ _ => none)

/-- `extractAssistantMessageText`: text parts, plus
`<thinking>…</thinking>`-wrapped thinking parts when enabled, joined with
newlines; tool calls never contribute. -/
def extractAssistantMessageText (content : List AssistantContentPart)
    (includeThinking : Bool) : String :=
  String.intercalate "\n" (content.filterMap fun part =>
    match part with
    | .text t => some t
    | .thinking th =>
        if includeThinking then some ("<thinking>" ++ th ++ "</thinking>") else none
    | .toolCall _ _ _ => none)

/-- Is a content part a tool call? (`part.type === "toolCall"`). -/
def isToolCallB : AssistantContentPart → Bool
  | .toolCall _ _ _ => true
  | _ => false

/-- Is a content part a thinking part? (`part.type === "thinking"`). -/
def isThinkingContentB : AssistantContentPart → Bool
  | .thinking _ => true
  | _ => false

/-- `countToolCalls`: `content.filter(toolCall).length`. -/
def countToolCalls (content : List AssistantContentPart) : Nat :=
  (content.filter isToolCallB).length

/-- Tool-result text: the result's text sub-parts joined with newlines,
images ignored. client.ts inlines this same filter/map/join expression. -/
def extractToolResultText (toolResult : ToolResultMessageLike) : String :=
  String.intercalate "\n" (toolResult.content.filterMap fun part =>
    match part with
    | .text t => some t
    | .image _ _ => none)

/-- `extractToolResultParts`: one `tool-result` part holding the joined text. -/
def extractToolResultParts (toolResult : ToolResultMessageLike) : List MessagePart :=
  [MessagePart.toolResult (extractToolResultText toolResult)]

/-- `content.some(p => p.type === "toolCall")`. -/
def hasToolCallsB (content : List AssistantContentPart) : Bool :=
  content.any isToolCallB

/-- `content.some(p => p.type === "thinking")`. -/
def hasThinkingB (content : List AssistantContentPart) : Bool :=
  content.any isThinkingContentB

/-- The interleaving pass of `transformAssistantMessage`: walk the content in
order; for each tool call push a `tool-call` part and, while `resultIndex`
has not exhausted `toolResults`, push the next result's `tool-result` part
immediately after and advance the index. -/
def interleaveToolCallParts :
    List AssistantContentPart → List ToolResultMessageLike → List MessagePart
  | [], _ => []
  | .toolCall _ name args :: rest, toolResults =>
      MessagePart.toolCall name args ::
        (match toolResults with
         | [] => interleaveToolCallParts rest []
         | r :: rs => MessagePart.toolResult (extractToolResultText r) :: interleaveToolCallParts rest rs)
  | .text _ :: rest, toolResults => interleaveToolCallParts rest toolResults
  | .thinking _ :: rest, toolResults => interleaveToolCallParts rest toolResults

/-- The second pass of `transformAssistantMessage`: one `thinking` part per
`Thinking` content entry, in original order. -/
def thinkingPartsList (content : List AssistantContentPart) : List MessagePart :=
  content.filterMap fun part =>
    match part with
    | .thinking th => some (MessagePart.thinking th)
    | _ => none

/-- The `parts` array built by `transformAssistantMessage`: the optional
leading text part (when the extracted text is truthy and any of tool
calls / enabled thinking / supplied tool results are present), then the
interleaving pass, then the thinking pass. -/
def transformAssistantParts (content : List AssistantContentPart)
    (includeThinking : Bool) (toolResults : List ToolResultMessageLike)
    (textContent : String) : List MessagePart :=
  (if (textContent != "") &&
      (hasToolCallsB content || (includeThinking && hasThinkingB content) || !toolResults.isEmpty)
   then [MessagePart.text textContent] else [])
  ++ interleaveToolCallParts content toolResults
  ++ (if includeThinking then thinkingPartsList content else [])

/-- `if (parts.length > 0) payload.parts = parts`. -/
def partsOption (ps : List MessagePart) : Option (List MessagePart) :=
  if ps = [] then none else some ps

/-- `transformAssistantMessage(sessionId, messageId, message, includeThinking,
toolResults)`: the assistant message payload. -/
def transformAssistantMessage (sessionId messageId : String)
    (message : AssistantMessageLike) (includeThinking : Bool)
    (toolResults : List ToolResultMessageLike) : MessagePayload :=
  let textContent := extractAssistantMessageText message.content includeThinking
  { sessionExternalId := sessionId
    externalId := messageId
    role := "assistant"
    textContent := if textContent == "" then none else some textContent
    model := some message.model
    promptTokens := message.usage.map (·.input)
    completionTokens := message.usage.map (·.output)
    createdAt := some message.timestamp
    parts := partsOption (transformAssistantParts message.content includeThinking toolResults textContent) }

/-- `transformUserMessage(sessionId, messageId, text, timestamp)`. -/
def transformUserMessage (sessionId messageId text : String) (timestamp : Int) : MessagePayload :=
  { sessionExternalId := sessionId
    externalId := messageId
    role := "user"
    textContent := some text
    model := none
    promptTokens := none
    completionTokens := none
    createdAt := some timestamp
    parts := none }

/-! ## SyncClient (src/client.ts, current revision, and the payload-passing
revision whose `request` logic is identical) -/

/-- `SyncResult`: `{success, error?}` — every sync operation returns this and
never throws. -/
structure SyncResult where
  success : Bool
  error : Option String
deriving Repr, DecidableEq

/-- `SessionData`: the domain-level session record `SyncClient.syncSession`
consumes. `isFinal` absent is the same as `false` to the only test
(`session.isFinal &&`), so it is modelled as `Bool`. -/
structure SessionData where
  sessionId : String
  projectPath : String
  parentSessionId : Option String
  title : Option String
  model : Option String
  provider : Option String
  promptTokens : Option Int
  completionTokens : Option Int
  cost : Option Rat
  messageCount : Option Int
  startedAt : Option Int
  isFinal : Bool
deriving Repr, DecidableEq

/-- An HTTP response as `request` observes it: status, body text, and
whether `response.json()` resolves (`jsonError = some msg` models the body
failing to parse as JSON, which rejects with that message). -/
structure HttpResponse where
  status : Nat
  bodyText : String
  jsonError : Option String
deriving Repr, DecidableEq

/-- `response.ok`: status in the inclusive range 200–299. -/
def HttpResponse.ok (r : HttpResponse) : Bool :=
  200 ≤ r.status && r.status ≤ 299

/-- The outcome of one `fetch` call: a response, or the transport-level
exception's message (`fetch` rejected). -/
inductive FetchOutcome where
  | response (r : HttpResponse)
  | exn (message : String)
deriving Repr, DecidableEq

namespace SyncClient

/-- `SyncClient.request`: interprets the transport outcome. Non-2xx yields
a failure carrying `status + ": " + body`; a thrown exception (including a
rejecting `response.json()` on the 2xx path — the `await response.json()`
sits inside the same `try`) yields a failure carrying the exception's
message; a 2xx response whose body parses yields success. -/
def request (outcome : FetchOutcome) : SyncResult :=
  match outcome with
  | .exn message => { success := false, error := some message }
  | .response r =>
      if r.ok then
        match r.jsonError with
        | none => { success := true, error := none }
        | some message => { success := false, error := some message }
      else
        { success := false, error := some (toString r.status ++ ": " ++ r.bodyText) }

/-- `syncSession` hands its payload to `request` and returns that result
verbatim (payload-passing client revision). -/
def syncSession (_payload : SessionPayload) (outcome : FetchOutcome) : SyncResult :=
  request outcome

/-- `syncMessage` hands its payload to `request` and returns that result
verbatim. -/
def syncMessage (_payload : MessagePayload) (outcome : FetchOutcome) : SyncResult :=
  request outcome

/-- `syncBatch` posts `sessions, messages` in one body and returns
`request`'s result verbatim. -/
def syncBatch (_sessions : List SessionPayload) (_messages : List MessagePayload)
    (outcome : FetchOutcome) : SyncResult :=
  request outcome

/-- The payload construction inside `SyncClient.syncSession` of the
domain-data client revision (client.ts lines 201–231): its own
`"Untitled"` fallback, fork prefix, pairwise token inclusion with `?? 0`
defaults, and duration only when `isFinal` and `startedAt` are truthy. -/
def syncSessionPayload (session : SessionData) (now : Int) : SessionPayload :=
  let title0 := jsOr session.title "Untitled"
  let title :=
    match session.parentSessionId with
    | some pid => if pid == "" then title0 else "[Fork::" ++ pid.take 8 ++ "] " ++ title0
    | none => title0
  let tokensPresent :=
    (session.promptTokens.getD 0) > 0 ∨ (session.completionTokens.getD 0) > 0
  { externalId := session.sessionId
    source := "pi"
    title := some title
    projectPath := some session.projectPath
    projectName := some (basename session.projectPath)
    model := jsTruthyOpt session.model
    provider := jsTruthyOpt session.provider
    promptTokens := if tokensPresent then session.promptTokens else none
    completionTokens := if tokensPresent then session.completionTokens else none
    totalTokens :=
      if tokensPresent then some (session.promptTokens.getD 0 + session.completionTokens.getD 0)
      else none
    cost := if (session.cost.getD 0) > 0 then session.cost else none
    durationMs :=
      match session.isFinal, session.startedAt with
      | true, some t => if t = 0 then none else some (now - t)
      | _, _ => none
    messageCount := if (session.messageCount.getD 0) > 0 then session.messageCount else none }

/-- `SyncClient.extractText`: same extraction as
`extractAssistantMessageText` (text parts, plus wrapped thinking when
enabled, joined with newlines). -/
def extractText (content : List AssistantContentPart) (includeThinking : Bool) : String :=
  String.intercalate "\n" (content.filterMap fun part =>
    match part with
    | .text t => some t
    | .thinking th =>
        if includeThinking then some ("<thinking>" ++ th ++ "</thinking>") else none
    | .toolCall _ _ _ => none)

/-- The content loop of `SyncClient.buildParts`: a single pass that pushes a
`tool-call` part (immediately followed by the next unconsumed result, if
any) for each tool call, pushes a `thinking` part in place when thinking
inclusion is on, and skips text parts. -/
def buildPartsLoop :
    List AssistantContentPart → List ToolResultMessageLike → Bool → List MessagePart
  | [], _, _ => []
  | .toolCall _ name args :: rest, toolResults, includeThinking =>
      MessagePart.toolCall name args ::
        (match toolResults with
         | [] => buildPartsLoop rest [] includeThinking
         | r :: rs =>
             MessagePart.toolResult (extractToolResultText r) :: buildPartsLoop rest rs includeThinking)
  | .thinking th :: rest, toolResults, includeThinking =>
      (if includeThinking then [MessagePart.thinking th] else [])
        ++ buildPartsLoop rest toolResults includeThinking
  | .text _ :: rest, toolResults, includeThinking =>
      buildPartsLoop rest toolResults includeThinking

/-- `SyncClient.buildParts`: the leading text part when the text and any
structured content are both present, then the single content pass. -/
def buildParts (content : List AssistantContentPart)
    (toolResults : List ToolResultMessageLike) (textContent : String)
    (includeThinking : Bool) : List MessagePart :=
  (if (textContent != "") &&
      (hasToolCallsB content || (includeThinking && hasThinkingB content) || !toolResults.isEmpty)
   then [MessagePart.text textContent] else [])
  ++ buildPartsLoop content toolResults includeThinking

end SyncClient

/-! ## EventOrchestrator (src/index.ts) -/

/-- The configuration fields the event handlers read. -/
structure Config where
  syncToolCalls : Bool
  syncThinking : Bool
deriving Repr, DecidableEq

/-- A message in the session branch history, as the handlers discriminate it:
`msg.role === "user"`, `"assistant"`, or anything else (counted but not
replayed). -/
inductive BranchMsg where
  | user (content : UserMessageContent) (timestamp : Int)
  | assistant (msg : AssistantMessageLike)
  | otherRole
deriving Repr, DecidableEq

/-- One entry of `ctx.sessionManager.getBranch()`:
`entry.type === "message"` or anything else. -/
inductive BranchEntry where
  | message (m : BranchMsg)
  | other
deriving Repr, DecidableEq

/-- The slice of the extension context the handlers read. -/
structure Ctx where
  sessionId : String
  cwd : String
  model : Option ModelInfo
  branch : List BranchEntry
  sessionName : Option String
  now : Int
deriving Repr, DecidableEq

/-- An outbound request issued by a handler. -/
inductive SyncRequest where
  | session (p : SessionPayload)
  | message (p : MessagePayload)
  | batch (sessions : List SessionPayload) (messages : List MessagePayload)
deriving Repr, DecidableEq

/-- The host lifecycle events the plugin subscribes to. -/
inductive PiEvent where
  | sessionStart (ctx : Ctx)
  | sessionFork (ctx : Ctx)
  | sessionShutdown (ctx : Ctx)
  | modelSelect (model : ModelInfo)
  | input (source text : String) (ctx : Ctx)
  | turnEnd (msg : BranchMsg) (toolResults : List ToolResultMessageLike) (ctx : Ctx)
deriving Repr, DecidableEq

/-- The branch scan of the `session_start` handler: count every message
entry, and restore usage and tool-call counts from assistant messages. -/
def resumeScan (acc : SessionState × Nat) (e : BranchEntry) : SessionState × Nat :=
  match e with
  | .other => acc
  | .message m =>
      let s := acc.1
      let n := acc.2 + 1
      match m with
      | .assistant am =>
          let s := match am.usage with
            | some u => s.updateUsage u
            | none => s
          let toolCalls := countToolCalls am.content
          let s := if toolCalls > 0 then s.incrementToolCallCount toolCalls else s
          (s, n)
      | _ => (s, n)

/-- `session_start` handler: create fresh state, scan the branch (resume
backfill), set `messageCount` when the branch was nonempty, and sync the
session. -/
def handleSessionStart (ctx : Ctx) : Option SessionState × List SyncRequest :=
  let s0 := SessionState.create ctx.sessionId ctx.cwd ctx.model none ctx.now
  let scanned := ctx.branch.foldl resumeScan (s0, 0)
  let s1 := scanned.1
  let msgCount := scanned.2
  let s2 := if msgCount > 0 then { s1 with messageCount := (msgCount : Int) } else s1
  let payload := transformSession s2 ctx.sessionName false ctx.now
  (some s2, [SyncRequest.session payload])

/-- The branch replay of the `session_fork` handler: count every message
entry, push a payload per user/assistant message — each id generated with
`state.generateMessageId(role)` at the state's *current* `messageCount`,
which the loop never increments — and fold assistant usage/tool-call counts
into the state. -/
def forkScan (cfg : Config) (sessionId : String)
    (acc : SessionState × Nat × List MessagePayload) (e : BranchEntry) :
    SessionState × Nat × List MessagePayload :=
  match e with
  | .other => acc
  | .message m =>
      let s := acc.1
      let n := acc.2.1 + 1
      let msgs := acc.2.2
      match m with
      | .user content ts =>
          let text := extractUserMessageText content
          (s, n, msgs ++ [transformUserMessage sessionId (s.generateMessageId "user") text ts])
      | .assistant am =>
          let p := transformAssistantMessage sessionId (s.generateMessageId "assistant") am
            cfg.syncThinking []
          let s := match am.usage with
            | some u => s.updateUsage u
            | none => s
          let toolCalls := countToolCalls am.content
          let s := if toolCalls > 0 then s.incrementToolCallCount toolCalls else s
          (s, n, msgs ++ [p])
      | .otherRole => (s, n, msgs)

/-- The batch endpoint does not accept `createdAt`; the fork handler strips
it (`messages.map(({createdAt, ...rest}) => rest)`). -/
def dropCreatedAt (p : MessagePayload) : MessagePayload :=
  { p with createdAt := none }

/-- `session_fork` handler: read the parent id off the current state (absent
when there is none — `state?.externalId`), create the forked state, sync it,
batch-sync the replayed branch messages, set `messageCount` to the branch
message count, and re-sync the session with totals. -/
def handleSessionFork (cfg : Config) (cur : Option SessionState) (ctx : Ctx) :
    Option SessionState × List SyncRequest :=
  let parentExternalId := cur.map (·.externalId)
  let s0 := SessionState.create ctx.sessionId ctx.cwd ctx.model parentExternalId ctx.now
  let payload1 := transformSession s0 ctx.sessionName false ctx.now
  let scanned := ctx.branch.foldl (forkScan cfg ctx.sessionId) (s0, 0, [])
  let s1 := scanned.1
  let msgCount := scanned.2.1
  let messages := scanned.2.2
  let s2 := { s1 with messageCount := (msgCount : Int) }
  let batchReqs :=
    if messages.isEmpty then []
    else [SyncRequest.batch [] (messages.map dropCreatedAt)]
  let payload2 := transformSession s2 ctx.sessionName false ctx.now
  (some s2, [SyncRequest.session payload1] ++ batchReqs ++ [SyncRequest.session payload2])

/-- `input` handler body (state known active): skip extension-injected
input, else bump the counter, generate the id, and sync the user message. -/
def handleInput (s : SessionState) (source text : String) (ctx : Ctx) :
    Option SessionState × List SyncRequest :=
  if source == "extension" then (some s, [])
  else
    let s := s.incrementMessageCount
    let messageId := s.generateMessageId "user"
    (some s, [SyncRequest.message (transformUserMessage s.externalId messageId text ctx.now)])

/-- `turn_end` handler body (state known active): assistant turns bump the
counter, fold usage and tool-call counts, sync the message (tool results
included only when `syncToolCalls`), then re-sync the session totals. -/
def handleTurnEnd (cfg : Config) (s : SessionState) (m : BranchMsg)
    (toolResults : List ToolResultMessageLike) (ctx : Ctx) :
    Option SessionState × List SyncRequest :=
  match m with
  | .assistant am =>
      let s := s.incrementMessageCount
      let messageId := s.generateMessageId "assistant"
      let s := match am.usage with
        | some u => s.updateUsage u
        | none => s
      let toolCalls := countToolCalls am.content
      let s := if toolCalls > 0 then s.incrementToolCallCount toolCalls else s
      let trs := if cfg.syncToolCalls then toolResults else []
      let p := transformAssistantMessage s.externalId messageId am cfg.syncThinking trs
      let sessionPayload := transformSession s ctx.sessionName false ctx.now
      (some s, [SyncRequest.message p, SyncRequest.session sessionPayload])
  | _ => (some s, [])

/-- One step of the orchestrator: dispatch an event against the current
(optional) session state, mirroring the `pi.on(...)` handlers of index.ts,
including each handler's `if (!state) return` guard — which the
`session_fork` handler does not have. -/
def step (cfg : Config) (cur : Option SessionState) (e : PiEvent) :
    Option SessionState × List SyncRequest :=
  match e with
  | .sessionStart ctx => handleSessionStart ctx
  | .sessionFork ctx => handleSessionFork cfg cur ctx
  | .sessionShutdown ctx =>
      match cur with
      | none => (none, [])
      | some s =>
          let payload := transformSession s ctx.sessionName true ctx.now
          (none, [SyncRequest.session payload])
  | .modelSelect m =>
      match cur with
      | none => (none, [])
      | some s => (some (s.updateModel m), [])
  | .input source text ctx =>
      match cur with
      | none => (none, [])
      | some s => handleInput s source text ctx
  | .turnEnd m toolResults ctx =>
      match cur with
      | none => (none, [])
      | some s => handleTurnEnd cfg s m toolResults ctx

/-! ## Spec-side definitions (for refinement statements) -/

/-- Modelled from the spec's words: for each tool call in original order,
one `tool-call` part immediately followed by the next unconsumed result as
a `tool-result` part if one remains; calls beyond the result list get no
paired result part. -/
def specInterleave : List (String × String) → List String → List MessagePart
  | [], _ => []
  | (name, args) :: calls, [] =>
      MessagePart.toolCall name args :: specInterleave calls []
  | (name, args) :: calls, r :: rs =>
      MessagePart.toolCall name args :: MessagePart.toolResult r :: specInterleave calls rs

/-- The `(toolName, args)` pairs of the tool calls of a content list, in
original order. -/
def toolCallsOf (content : List AssistantContentPart) : List (String × String) :=
  content.filterMap fun part =>
    match part with
    | .toolCall _ name args => some (name, args)
    | _ => none

/-- Modelled from the spec's words: the session title is the human-assigned
name or the literal fallback `"Untitled"`, prefixed — when the session has a
(nonempty) parent id — with the fork marker built from that id's first 8
characters. -/
def specTitle (parent sessionName : Option String) : String :=
  let base := jsOr sessionName "Untitled"
  match parent with
  | some pid => if pid == "" then base else "[Fork::" ++ pid.take 8 ++ "] " ++ base
  | none => base

/-! ## Part predicates -/

/-- Is a message part a `tool-call` or `tool-result` part? -/
def isToolPartB : MessagePart → Bool
  | .toolCall _ _ => true
  | .toolResult _ => true
  | _ => false

/-- Is a message part a `thinking` part? -/
def isThinkingPartB : MessagePart → Bool
  | .thinking _ => true
  | _ => false

/-- The content of a `tool-result` part, if the part is one. -/
def resultContentOf : MessagePart → Option String
  | .toolResult c => some c
  | _ => none

/-- Does every `thinking` part come after every `tool-call`/`tool-result`
part? (True iff no tool part occurs anywhere after a thinking part.) -/
def thinkingAfterToolParts : List MessagePart → Bool
  | [] => true
  | .thinking _ :: rest => rest.all fun p => !isToolPartB p
  | _ :: rest => thinkingAfterToolParts rest

/-! ## SessionState operation sequences (for the accumulator claims) -/

/-- One mutation of a `SessionState`, as issued by the event handlers. -/
inductive StateOp where
  | updateUsage (u : Usage)
  | incrementMessageCount
  | incrementToolCallCount (count : Nat)
  | updateModel (m : ModelInfo)
deriving Repr, DecidableEq

/-- Apply one operation. -/
def applyOp (s : SessionState) : StateOp → SessionState
  | .updateUsage u => s.updateUsage u
  | .incrementMessageCount => s.incrementMessageCount
  | .incrementToolCallCount n => s.incrementToolCallCount n
  | .updateModel m => s.updateModel m

/-- Apply a sequence of operations left to right. -/
def applyOps (s : SessionState) (ops : List StateOp) : SessionState :=
  ops.foldl applyOp s

/-- The precondition of the accumulator claim: every applied usage delta has
non-negative input, output and cost. -/
def usageNonNeg : StateOp → Prop
  | .updateUsage u => 0 ≤ u.input ∧ 0 ≤ u.output ∧ 0 ≤ u.costTotal
  | _ => True

instance : DecidablePred usageNonNeg := fun op => by
  cases op <;> simp only [usageNonNeg] <;> infer_instance

/-- How many `incrementMessageCount` operations a sequence contains. -/
def countMsgIncrements (ops : List StateOp) : Nat :=
  ops.countP fun op =>
    match op with
    | .incrementMessageCount => true
    | _ => false

/-! ## Helper lemmas -/

theorem interleave_eq_specInterleave (content : List AssistantContentPart)
    (trs : List ToolResultMessageLike) :
    interleaveToolCallParts content trs =
      specInterleave (toolCallsOf content) (trs.map extractToolResultText) := by
  induction content generalizing trs with
  | nil => rfl
  | cons p rest ih =>
      cases p with
      | text t => simpa [interleaveToolCallParts, toolCallsOf] using ih trs
      | thinking th => simpa [interleaveToolCallParts, toolCallsOf] using ih trs
      | toolCall i name args =>
          cases trs with
          | nil => simpa [interleaveToolCallParts, toolCallsOf, specInterleave] using ih []
          | cons r rs =>
              simpa [interleaveToolCallParts, toolCallsOf, specInterleave] using ih rs

theorem specInterleave_filterMap_result (calls : List (String × String)) (rs : List String) :
    (specInterleave calls rs).filterMap resultContentOf = rs.take calls.length := by
  induction calls generalizing rs with
  | nil => simp [specInterleave]
  | cons c calls ih =>
      obtain ⟨name, args⟩ := c
      cases rs with
      | nil => simpa [specInterleave, resultContentOf] using ih []
      | cons r rest => simpa [specInterleave, resultContentOf] using ih rest

theorem specInterleave_not_thinking (calls : List (String × String)) (rs : List String) :
    ∀ p ∈ specInterleave calls rs, isThinkingPartB p = false := by
  induction calls generalizing rs with
  | nil => simp [specInterleave]
  | cons c calls ih =>
      obtain ⟨name, args⟩ := c
      cases rs with
      | nil =>
          intro p hp
          rcases List.mem_cons.mp hp with h | hp
          · subst h; rfl
          · exact ih [] p hp
      | cons r rest =>
          intro p hp
          rcases List.mem_cons.mp hp with h | hp
          · subst h; rfl
          · rcases List.mem_cons.mp hp with h | hp
            · subst h; rfl
            · exact ih rest p hp

theorem specInterleave_filter_thinking (calls : List (String × String)) (rs : List String) :
    (specInterleave calls rs).filter isThinkingPartB = [] := by
  rw [List.filter_eq_nil_iff]
  intro p hp
  simp [specInterleave_not_thinking calls rs p hp]

theorem thinkingPartsList_mem_thinking (content : List AssistantContentPart) :
    ∀ p ∈ thinkingPartsList content, isThinkingPartB p = true ∧ isToolPartB p = false := by
  intro p hp
  rcases List.mem_filterMap.mp hp with ⟨a, _, ha⟩
  cases a <;> simp_all [isThinkingPartB, isToolPartB]
  subst ha
  simp [isThinkingPartB, isToolPartB]

theorem thinkingPartsList_filter_self (content : List AssistantContentPart) :
    (thinkingPartsList content).filter isThinkingPartB = thinkingPartsList content := by
  rw [List.filter_eq_self]
  intro p hp
  exact (thinkingPartsList_mem_thinking content p hp).1

theorem thinkingPartsList_filterMap_result (content : List AssistantContentPart) :
    (thinkingPartsList content).filterMap resultContentOf = [] := by
  rw [List.filterMap_eq_nil_iff]
  intro p hp
  have := (thinkingPartsList_mem_thinking content p hp).1
  cases p <;> simp_all [resultContentOf, isThinkingPartB]

theorem countToolCalls_eq_toolCallsOf_length (content : List AssistantContentPart) :
    countToolCalls content = (toolCallsOf content).length := by
  induction content with
  | nil => rfl
  | cons p rest ih =>
      cases p <;> simp [countToolCalls, toolCallsOf, isToolCallB, List.filter] at ih ⊢ <;>
        simpa [countToolCalls, toolCallsOf] using ih

theorem thinkingAfterToolParts_of_noTool (ys : List MessagePart)
    (hy : ∀ p ∈ ys, isToolPartB p = false) : thinkingAfterToolParts ys = true := by
  induction ys with
  | nil => rfl
  | cons p rest ih =>
      cases p with
      | thinking th =>
          simp only [thinkingAfterToolParts, List.all_eq_true]
          intro q hq
          simp [hy q (List.mem_cons_of_mem _ hq)]
      | text t =>
          simpa [thinkingAfterToolParts] using
            ih (fun q hq => hy q (List.mem_cons_of_mem _ hq))
      | toolCall n a =>
          exact absurd (hy _ (List.mem_cons_self _ _)) (by simp [isToolPartB])
      | toolResult c =>
          exact absurd (hy _ (List.mem_cons_self _ _)) (by simp [isToolPartB])

theorem thinkingAfterToolParts_append (xs ys : List MessagePart)
    (hx : ∀ p ∈ xs, isThinkingPartB p = false)
    (hy : ∀ p ∈ ys, isToolPartB p = false) :
    thinkingAfterToolParts (xs ++ ys) = true := by
  induction xs with
  | nil => simpa using thinkingAfterToolParts_of_noTool ys hy
  | cons p rest ih =>
      cases p with
      | thinking th => exact absurd (hx _ (List.mem_cons_self _ _)) (by simp [isThinkingPartB])
      | text t =>
          simpa [thinkingAfterToolParts] using
            ih (fun q hq => hx q (List.mem_cons_of_mem _ hq))
      | toolCall n a =>
          simpa [thinkingAfterToolParts] using
            ih (fun q hq => hx q (List.mem_cons_of_mem _ hq))
      | toolResult c =>
          simpa [thinkingAfterToolParts] using
            ih (fun q hq => hx q (List.mem_cons_of_mem _ hq))

theorem buildPartsLoop_filter_tool (content : List AssistantContentPart)
    (trs : List ToolResultMessageLike) (inc : Bool) :
    (SyncClient.buildPartsLoop content trs inc).filter isToolPartB =
      specInterleave (toolCallsOf content) (trs.map extractToolResultText) := by
  induction content generalizing trs with
  | nil => rfl
  | cons p rest ih =>
      cases p with
      | text t => simpa [SyncClient.buildPartsLoop, toolCallsOf] using ih trs
      | thinking th =>
          cases inc <;>
            simpa [SyncClient.buildPartsLoop, toolCallsOf, isToolPartB, List.filter_append]
              using ih trs
      | toolCall i name args =>
          cases trs with
          | nil =>
              simpa [SyncClient.buildPartsLoop, toolCallsOf, specInterleave, isToolPartB]
                using ih []
          | cons r rs =>
              simpa [SyncClient.buildPartsLoop, toolCallsOf, specInterleave, isToolPartB]
                using ih rs

theorem buildPartsLoop_filter_thinking (content : List AssistantContentPart)
    (trs : List ToolResultMessageLike) (inc : Bool) :
    (SyncClient.buildPartsLoop content trs inc).filter isThinkingPartB =
      if inc then thinkingPartsList content else [] := by
  induction content generalizing trs with
  | nil => cases inc <;> simp [SyncClient.buildPartsLoop, thinkingPartsList]
  | cons p rest ih =>
      cases p with
      | text t =>
          cases inc <;>
            simpa [SyncClient.buildPartsLoop, thinkingPartsList] using ih trs
      | thinking th =>
          cases inc <;>
            simpa [SyncClient.buildPartsLoop, thinkingPartsList, isThinkingPartB,
              List.filter_append] using ih trs
      | toolCall i name args =>
          cases trs with
          | nil =>
              cases inc <;>
                simpa [SyncClient.buildPartsLoop, thinkingPartsList, isThinkingPartB]
                  using ih []
          | cons r rs =>
              cases inc <;>
                simpa [SyncClient.buildPartsLoop, thinkingPartsList, isThinkingPartB]
                  using ih rs

theorem buildParts_filter_tool (content : List AssistantContentPart)
    (trs : List ToolResultMessageLike) (txt : String) (inc : Bool) :
    (SyncClient.buildParts content trs txt inc).filter isToolPartB =
      specInterleave (toolCallsOf content) (trs.map extractToolResultText) := by
  unfold SyncClient.buildParts
  rw [List.filter_append, buildPartsLoop_filter_tool]
  split <;> simp [isToolPartB]

theorem buildParts_filter_thinking (content : List AssistantContentPart)
    (trs : List ToolResultMessageLike) (txt : String) (inc : Bool) :
    (SyncClient.buildParts content trs txt inc).filter isThinkingPartB =
      if inc then thinkingPartsList content else [] := by
  unfold SyncClient.buildParts
  rw [List.filter_append, buildPartsLoop_filter_thinking]
  split <;> simp [isThinkingPartB]

theorem filterMap_result_eq_filter_tool (l : List MessagePart) :
    l.filterMap resultContentOf = (l.filter isToolPartB).filterMap resultContentOf := by
  induction l with
  | nil => rfl
  | cons p rest ih => cases p <;> simp [resultContentOf, isToolPartB, ih]

theorem buildParts_filterMap_result (content : List AssistantContentPart)
    (trs : List ToolResultMessageLike) (txt : String) (inc : Bool) :
    (SyncClient.buildParts content trs txt inc).filterMap resultContentOf =
      (trs.map extractToolResultText).take (countToolCalls content) := by
  rw [filterMap_result_eq_filter_tool, buildParts_filter_tool,
    specInterleave_filterMap_result, countToolCalls_eq_toolCallsOf_length]

theorem transformAssistantParts_filter_thinking (content : List AssistantContentPart)
    (inc : Bool) (trs : List ToolResultMessageLike) (txt : String) :
    (transformAssistantParts content inc trs txt).filter isThinkingPartB =
      if inc then thinkingPartsList content else [] := by
  unfold transformAssistantParts
  rw [List.filter_append, List.filter_append, interleave_eq_specInterleave,
    specInterleave_filter_thinking]
  have hlead : (if (txt != "") &&
      (hasToolCallsB content || (inc && hasThinkingB content) || !trs.isEmpty)
      then [MessagePart.text txt] else []).filter isThinkingPartB = [] := by
    split <;> simp [isThinkingPartB]
  rw [hlead]
  cases inc <;> simp [thinkingPartsList_filter_self]

theorem transformAssistantParts_filterMap_result (content : List AssistantContentPart)
    (inc : Bool) (trs : List ToolResultMessageLike) (txt : String) :
    (transformAssistantParts content inc trs txt).filterMap resultContentOf =
      (trs.map extractToolResultText).take (countToolCalls content) := by
  unfold transformAssistantParts
  rw [List.filterMap_append, List.filterMap_append, interleave_eq_specInterleave,
    specInterleave_filterMap_result, countToolCalls_eq_toolCallsOf_length]
  have hlead : (if (txt != "") &&
      (hasToolCallsB content || (inc && hasThinkingB content) || !trs.isEmpty)
      then [MessagePart.text txt] else []).filterMap resultContentOf = [] := by
    split <;> simp [resultContentOf]
  have htail : (if inc then thinkingPartsList content else []).filterMap resultContentOf = [] := by
    cases inc <;> simp [thinkingPartsList_filterMap_result]
  rw [hlead, htail]
  simp

theorem transformAssistantParts_thinkingAfter (content : List AssistantContentPart)
    (inc : Bool) (trs : List ToolResultMessageLike) (txt : String) :
    thinkingAfterToolParts (transformAssistantParts content inc trs txt) = true := by
  unfold transformAssistantParts
  refine thinkingAfterToolParts_append _ _ ?_ ?_
  · intro p hp
    rcases List.mem_append.mp hp with hp | hp
    · revert hp
      split <;> intro hp
      · rcases List.mem_singleton.mp hp with rfl
        rfl
      · cases hp
    · rw [interleave_eq_specInterleave] at hp
      exact specInterleave_not_thinking _ _ p hp
  · intro p hp
    revert hp
    cases inc with
    | true =>
        intro hp
        exact (thinkingPartsList_mem_thinking content p (by simpa using hp)).2
    | false => intro hp; cases hp

theorem transformSession_promptTokens (s : SessionState) (n : Option String)
    (f : Bool) (now : Int) :
    (transformSession s n f now).promptTokens =
      if 0 < s.promptTokens ∨ 0 < s.completionTokens then some s.promptTokens else none := rfl

theorem transformSession_completionTokens (s : SessionState) (n : Option String)
    (f : Bool) (now : Int) :
    (transformSession s n f now).completionTokens =
      if 0 < s.promptTokens ∨ 0 < s.completionTokens then some s.completionTokens else none := rfl

theorem transformSession_totalTokens (s : SessionState) (n : Option String)
    (f : Bool) (now : Int) :
    (transformSession s n f now).totalTokens =
      if 0 < s.promptTokens ∨ 0 < s.completionTokens then
        some (s.promptTokens + s.completionTokens)
      else none := rfl

theorem transformSession_cost (s : SessionState) (n : Option String)
    (f : Bool) (now : Int) :
    (transformSession s n f now).cost = if 0 < s.cost then some s.cost else none := rfl

theorem transformSession_messageCount (s : SessionState) (n : Option String)
    (f : Bool) (now : Int) :
    (transformSession s n f now).messageCount =
      if 0 < s.messageCount then some s.messageCount else none := rfl

theorem transformSession_title (s : SessionState) (n : Option String)
    (f : Bool) (now : Int) :
    (transformSession s n f now).title =
      if generateSessionTitle s n == "" then none else some (generateSessionTitle s n) := rfl

theorem jsOr_untitled_ne_empty (name : Option String) : jsOr name "Untitled" ≠ "" := by
  cases name with
  | none => simp [jsOr]
  | some v =>
      by_cases h : v = ""
      · simp [jsOr, h]
      · simp [jsOr, h]

theorem specTitle_ne_empty (parent name : Option String) : specTitle parent name ≠ "" := by
  unfold specTitle
  cases parent with
  | none => exact jsOr_untitled_ne_empty name
  | some pid =>
      by_cases h : pid = ""
      · simpa [h] using jsOr_untitled_ne_empty name
      · simp only [h, if_neg, beq_iff_eq, if_false]
        intro hcontra
        have hlen := congrArg String.length hcontra
        have h7 : "[Fork::".length = 7 := rfl
        have h0 : "".length = 0 := rfl
        simp only [String.length_append] at hlen
        omega

/-! ## Claim theorems -/

/-- C2: for every assistant turn, the structured parts of the payload are an
optional leading text part, then — exactly as the spec words it
(`specInterleave`) — one `tool-call` part per `ToolCall` of the content in
original order, each immediately followed by the next unconsumed tool
result as a `tool-result` part while results remain (calls beyond the
result list get no paired part and cause no error), then the thinking tail;
the parts are never grouped as all calls followed by all results. The same
call/result interleaving holds for the `SyncClient.buildParts`
implementation (its call/result subsequence is exactly `specInterleave`). -/
theorem claim_C2 (sid mid : String) (msg : AssistantMessageLike) (inc : Bool)
    (trs : List ToolResultMessageLike) (c : List AssistantContentPart) (txt : String) :
    (transformAssistantMessage sid mid msg inc trs).parts =
      partsOption
        ((if (extractAssistantMessageText msg.content inc != "") &&
             (hasToolCallsB msg.content || (inc && hasThinkingB msg.content) || !trs.isEmpty)
          then [MessagePart.text (extractAssistantMessageText msg.content inc)] else [])
         ++ specInterleave (toolCallsOf msg.content) (trs.map extractToolResultText)
         ++ (if inc then thinkingPartsList msg.content else [])) ∧
    (SyncClient.buildParts c trs txt inc).filter isToolPartB =
      specInterleave (toolCallsOf c) (trs.map extractToolResultText) := by
  constructor
  · show partsOption (transformAssistantParts msg.content inc trs
        (extractAssistantMessageText msg.content inc)) = _
    unfold transformAssistantParts
    rw [interleave_eq_specInterleave]
  · exact buildParts_filter_tool c trs txt inc

/-- C3: when the extracted plain text is non-empty and the turn has a tool
call, an (enabled) thinking part, or a supplied tool result, the first
emitted part is a text part carrying the full extracted text — in both the
`transformAssistantMessage` and the `SyncClient.buildParts` implementation
(a turn with only thinking content and thinking-inclusion on is covered,
see the witness). -/
theorem claim_C3 (sid mid : String) (msg : AssistantMessageLike) (inc : Bool)
    (trs : List ToolResultMessageLike)
    (h1 : extractAssistantMessageText msg.content inc ≠ "")
    (h2 : hasToolCallsB msg.content = true ∨
      (inc = true ∧ hasThinkingB msg.content = true) ∨ trs ≠ []) :
    (∃ tail, (transformAssistantMessage sid mid msg inc trs).parts =
        some (MessagePart.text (extractAssistantMessageText msg.content inc) :: tail)) ∧
    (∃ tail, SyncClient.buildParts msg.content trs
        (SyncClient.extractText msg.content inc) inc =
        MessagePart.text (SyncClient.extractText msg.content inc) :: tail) := by
  have hext : SyncClient.extractText msg.content inc =
      extractAssistantMessageText msg.content inc := rfl
  have hb : (extractAssistantMessageText msg.content inc != "") = true := by
    simpa using h1
  have hb2 : (hasToolCallsB msg.content || (inc && hasThinkingB msg.content)
      || !trs.isEmpty) = true := by
    rcases h2 with h | ⟨hi, ht⟩ | h
    · simp [h]
    · simp [hi, ht]
    · cases trs with
      | nil => exact absurd rfl h
      | cons r rs => simp
  constructor
  · refine ⟨interleaveToolCallParts msg.content trs ++
      (if inc then thinkingPartsList msg.content else []), ?_⟩
    show partsOption (transformAssistantParts msg.content inc trs
        (extractAssistantMessageText msg.content inc)) = _
    unfold transformAssistantParts
    rw [hb, hb2]
    simp [partsOption]
  · refine ⟨SyncClient.buildPartsLoop msg.content trs inc, ?_⟩
    unfold SyncClient.buildParts
    rw [hext, hb, hb2]
    simp

/-- C3 witness: a turn whose content is a single thinking entry, with
thinking-inclusion on and no tool results, still leads with the duplicated
text part. -/
theorem claim_C3_witness :
    (∃ tail, (transformAssistantMessage "s" "m"
        ⟨[AssistantContentPart.thinking "t"], "mod", 0, none⟩ true []).parts =
        some (MessagePart.text (extractAssistantMessageText
          [AssistantContentPart.thinking "t"] true) :: tail)) ∧
    (∃ tail, SyncClient.buildParts [AssistantContentPart.thinking "t"] []
        (SyncClient.extractText [AssistantContentPart.thinking "t"] true) true =
        MessagePart.text (SyncClient.extractText
          [AssistantContentPart.thinking "t"] true) :: tail) :=
  claim_C3 "s" "m" ⟨[AssistantContentPart.thinking "t"], "mod", 0, none⟩ true []
    (by decide) (Or.inr (Or.inl ⟨rfl, by decide⟩))

/-- C4 counterexample: in `SyncClient.buildParts` (client.ts, one of the two
cited implementations of the parts algorithm) a thinking entry preceding a
tool call yields a thinking part *before* that tool-call part, so the claim
"every thinking part is positioned after all tool-call and tool-result
parts" is false at this input. -/
theorem claim_C4_counterexample :
    SyncClient.buildParts
        [AssistantContentPart.thinking "t", AssistantContentPart.toolCall "1" "read" "x"] []
        (SyncClient.extractText
          [AssistantContentPart.thinking "t", AssistantContentPart.toolCall "1" "read" "x"] true)
        true =
      [MessagePart.text "<thinking>t</thinking>", MessagePart.thinking "t",
        MessagePart.toolCall "read" "x"] ∧
    thinkingAfterToolParts
        (SyncClient.buildParts
          [AssistantContentPart.thinking "t", AssistantContentPart.toolCall "1" "read" "x"] []
          (SyncClient.extractText
            [AssistantContentPart.thinking "t", AssistantContentPart.toolCall "1" "read" "x"] true)
          true) = false :=
  ⟨rfl, rfl⟩

/-- C4 (amended): when thinking-inclusion is enabled the emitted parts
contain exactly one thinking part per `Thinking` content entry in original
order (and none when disabled) in both implementations;
`transformAssistantMessage` appends them after all tool-call/tool-result
parts, while `SyncClient.buildParts` emits them at their original content
position, so there a thinking entry preceding a tool call produces a
thinking part before that tool-call part. -/
theorem claim_C4_amended (sid mid : String) (msg : AssistantMessageLike) (inc : Bool)
    (trs : List ToolResultMessageLike) (txt : String) (c : List AssistantContentPart) :
    (transformAssistantMessage sid mid msg inc trs).parts =
      partsOption (transformAssistantParts msg.content inc trs
        (extractAssistantMessageText msg.content inc)) ∧
    (transformAssistantParts c inc trs txt).filter isThinkingPartB =
      (if inc then thinkingPartsList c else []) ∧
    thinkingAfterToolParts (transformAssistantParts c inc trs txt) = true ∧
    (SyncClient.buildParts c trs txt inc).filter isThinkingPartB =
      (if inc then thinkingPartsList c else []) :=
  ⟨rfl, transformAssistantParts_filter_thinking c inc trs txt,
    transformAssistantParts_thinkingAfter c inc trs txt,
    buildParts_filter_thinking c trs txt inc⟩

/-- C10: the emitted tool-result parts are exactly the first
`min(number of tool calls, number of supplied results)` results (their text
sub-parts concatenated); results beyond the number of tool calls are
dropped and appear nowhere in the payload — in both implementations. -/
theorem claim_C10 (sid mid : String) (msg : AssistantMessageLike) (inc : Bool)
    (trs : List ToolResultMessageLike) (txt : String) (c : List AssistantContentPart) :
    (transformAssistantParts msg.content inc trs
        (extractAssistantMessageText msg.content inc)).filterMap resultContentOf =
      (trs.map extractToolResultText).take (countToolCalls msg.content) ∧
    ((transformAssistantParts msg.content inc trs
        (extractAssistantMessageText msg.content inc)).filterMap resultContentOf).length =
      min (countToolCalls msg.content) trs.length ∧
    (SyncClient.buildParts c trs txt inc).filterMap resultContentOf =
      (trs.map extractToolResultText).take (countToolCalls c) ∧
    (transformAssistantMessage sid mid msg inc trs).parts =
      partsOption (transformAssistantParts msg.content inc trs
        (extractAssistantMessageText msg.content inc)) := by
  refine ⟨transformAssistantParts_filterMap_result _ _ _ _, ?_, ?_, rfl⟩
  · rw [transformAssistantParts_filterMap_result]
    simp [List.length_take]
  · exact buildParts_filterMap_result c trs txt inc

/-- C5: on every session sync the payload's title is present: the
human-assigned name or the literal fallback `"Untitled"`, prefixed — when
the session has a parent — with `[Fork::` + the parent id's first 8
characters + `] `, exactly as `specTitle` words the spec; this holds both
for `transformSession` (used on every session sync of the handler pipeline)
and for the `SyncClient.syncSessionPayload` construction, and the title
is never the empty string. -/
theorem claim_C5 (s : SessionState) (sessionName : Option String) (isFinal : Bool)
    (now : Int) (d : SessionData) (now2 : Int) :
    (transformSession s sessionName isFinal now).title =
      some (specTitle s.parentExternalId sessionName) ∧
    (SyncClient.syncSessionPayload d now2).title =
      some (specTitle d.parentSessionId d.title) ∧
    (∀ parent nm, specTitle parent nm ≠ "") := by
  refine ⟨?_, rfl, fun parent nm => specTitle_ne_empty parent nm⟩
  have hgen : generateSessionTitle s sessionName = specTitle s.parentExternalId sessionName := rfl
  have hne := specTitle_ne_empty s.parentExternalId sessionName
  rw [transformSession_title, hgen]
  simp [hne]

/-- C5 witness: a forked session with parent id `abcd1234-5678` and no
human-assigned name is titled `[Fork::abcd1234] Untitled` on sync. -/
theorem claim_C5_witness :
    (transformSession (SessionState.create "s1" "/p" none (some "abcd1234-5678") 0)
        none false 0).title = some "[Fork::abcd1234] Untitled" :=
  (claim_C5 (SessionState.create "s1" "/p" none (some "abcd1234-5678") 0) none false 0
    { sessionId := "x", projectPath := "/p", parentSessionId := none, title := none,
      model := none, provider := none, promptTokens := none, completionTokens := none,
      cost := none, messageCount := none, startedAt := none, isFinal := false } 0).1

/-- C6 counterexample: a state with `promptTokens = 0` but positive
`completionTokens` has `promptTokens` *included* (as `0`) in the payload,
refuting "omits each of promptTokens, … when its value is exactly zero". -/
theorem claim_C6_counterexample :
    ({ SessionState.create "s1" "/p" none none 0 with completionTokens := 5 }
        : SessionState).promptTokens = 0 ∧
    (transformSession
        { SessionState.create "s1" "/p" none none 0 with completionTokens := 5 }
        none false 0).promptTokens = some 0 :=
  ⟨rfl, rfl⟩

/-- C6 (amended): `promptTokens` and `completionTokens` are omitted when
both are zero and both included — with `totalTokens` their sum — when
either is positive (so a zero `promptTokens` is sent as `0` once
`completionTokens` is positive); `cost` and `messageCount` are individually
omitted when zero and included when positive. -/
theorem claim_C6_amended (s : SessionState) (sessionName : Option String)
    (isFinal : Bool) (now : Int) :
    (s.promptTokens = 0 ∧ s.completionTokens = 0 →
      (transformSession s sessionName isFinal now).promptTokens = none ∧
      (transformSession s sessionName isFinal now).completionTokens = none ∧
      (transformSession s sessionName isFinal now).totalTokens = none) ∧
    (0 < s.promptTokens ∨ 0 < s.completionTokens →
      (transformSession s sessionName isFinal now).promptTokens = some s.promptTokens ∧
      (transformSession s sessionName isFinal now).completionTokens = some s.completionTokens ∧
      (transformSession s sessionName isFinal now).totalTokens =
        some (s.promptTokens + s.completionTokens)) ∧
    (s.cost = 0 → (transformSession s sessionName isFinal now).cost = none) ∧
    (0 < s.cost → (transformSession s sessionName isFinal now).cost = some s.cost) ∧
    (s.messageCount = 0 → (transformSession s sessionName isFinal now).messageCount = none) ∧
    (0 < s.messageCount →
      (transformSession s sessionName isFinal now).messageCount = some s.messageCount) := by
  refine ⟨?_, ?_, ?_, ?_, ?_, ?_⟩
  · rintro ⟨h1, h2⟩
    rw [transformSession_promptTokens, transformSession_completionTokens,
      transformSession_totalTokens] at *
    simp [h1, h2]
  · intro h
    rw [transformSession_promptTokens, transformSession_completionTokens,
      transformSession_totalTokens]
    simp [h]
  · intro h
    rw [transformSession_cost]
    simp [h]
  · intro h
    rw [transformSession_cost, if_pos h]
  · intro h
    rw [transformSession_messageCount]
    simp [h]
  · intro h
    rw [transformSession_messageCount, if_pos h]

/-- C6 witness: a state with positive `promptTokens`, zero cost and
positive `messageCount` gets the token pair included and the cost omitted. -/
theorem claim_C6_witness :
    (transformSession
        { SessionState.create "s1" "/p" none none 0 with promptTokens := 3, messageCount := 2 }
        none false 0).promptTokens = some 3 ∧
    (transformSession
        { SessionState.create "s1" "/p" none none 0 with promptTokens := 3, messageCount := 2 }
        none false 0).cost = none ∧
    (transformSession
        { SessionState.create "s1" "/p" none none 0 with promptTokens := 3, messageCount := 2 }
        none false 0).messageCount = some 2 := by
  have h := claim_C6_amended
    { SessionState.create "s1" "/p" none none 0 with promptTokens := 3, messageCount := 2 }
    none false 0
  exact ⟨(h.2.1 (Or.inl (by decide))).1, h.2.2.1 rfl, h.2.2.2.2.2 (by decide)⟩

/-- C7 counterexample: a 2xx response whose body fails to parse as JSON
(`await response.json()` rejects inside the same `try`) yields a failure
result, refuting "a 2xx response yields success: true". -/
theorem claim_C7_counterexample :
    (({ status := 200, bodyText := "<html>oops", jsonError := some "Unexpected token" }
        : HttpResponse)).ok = true ∧
    SyncClient.request (FetchOutcome.response
        { status := 200, bodyText := "<html>oops", jsonError := some "Unexpected token" }) =
      { success := false, error := some "Unexpected token" } :=
  ⟨rfl, rfl⟩

/-- C7 (amended): every sync operation returns `request`'s `{success,
error?}` result and never throws; a transport-level exception yields a
failure carrying the exception's message, a non-2xx response a failure
carrying `status + ": " + body`, a 2xx response whose body parses as JSON a
success, and a 2xx response whose body fails to parse a failure carrying
the parse exception's message (caught by the same handler). -/
theorem claim_C7_amended (p : SessionPayload) (m : MessagePayload)
    (ss : List SessionPayload) (ms : List MessagePayload) (o : FetchOutcome) :
    SyncClient.syncSession p o = SyncClient.request o ∧
    SyncClient.syncMessage m o = SyncClient.request o ∧
    SyncClient.syncBatch ss ms o = SyncClient.request o ∧
    (∀ msg, SyncClient.request (FetchOutcome.exn msg) =
      { success := false, error := some msg }) ∧
    (∀ r : HttpResponse, r.ok = false →
      SyncClient.request (FetchOutcome.response r) =
        { success := false, error := some (toString r.status ++ ": " ++ r.bodyText) }) ∧
    (∀ r : HttpResponse, r.ok = true → r.jsonError = none →
      SyncClient.request (FetchOutcome.response r) = { success := true, error := none }) ∧
    (∀ (r : HttpResponse) (e : String), r.ok = true → r.jsonError = some e →
      SyncClient.request (FetchOutcome.response r) =
        { success := false, error := some e }) := by
  refine ⟨rfl, rfl, rfl, fun msg => rfl, ?_, ?_, ?_⟩
  · intro r h
    simp [SyncClient.request, h]
  · intro r h hj
    simp [SyncClient.request, h, hj]
  · intro r e h hj
    simp [SyncClient.request, h, hj]

/-- C7 witness: a 401 with body `Unauthorized` yields the failure result
`401: Unauthorized`, and a plain 2xx JSON response yields success. -/
theorem claim_C7_witness :
    SyncClient.request (FetchOutcome.response
        { status := 401, bodyText := "Unauthorized", jsonError := none }) =
      { success := false, error := some "401: Unauthorized" } ∧
    SyncClient.request (FetchOutcome.response
        { status := 200, bodyText := "ok-body", jsonError := none }) =
      { success := true, error := none } := by
  have h := claim_C7_amended
    (transformSession (SessionState.create "s" "/p" none none 0) none false 0)
    (transformUserMessage "s" "m" "t" 0) [] [] (FetchOutcome.exn "x")
  exact ⟨h.2.2.2.2.1 { status := 401, bodyText := "Unauthorized", jsonError := none } rfl,
    h.2.2.2.2.2.1 { status := 200, bodyText := "ok-body", jsonError := none } rfl rfl⟩

/-- Orchestrator configuration used by the concrete scenarios below. -/
def cfg1 : Config := { syncToolCalls := true, syncThinking := false }

/-- An active parent session state, for the fork scenarios. -/
def parent1 : SessionState := SessionState.create "parent-sess" "/proj" none none 0

/-- A fork context whose branch replays two user messages. -/
def ctx1 : Ctx :=
  { sessionId := "child-sess", cwd := "/proj", model := none,
    branch := [BranchEntry.message (BranchMsg.user (UserMessageContent.str "hi") 1),
      BranchEntry.message (BranchMsg.user (UserMessageContent.str "again") 2)],
    sessionName := none, now := 5 }

/-- A fork context with an empty branch. -/
def ctx2 : Ctx :=
  { sessionId := "new-sess", cwd := "/proj", model := none, branch := [],
    sessionName := none, now := 7 }

/-- The message ids carried by the batch requests of a request list. -/
def batchMessageIds (reqs : List SyncRequest) : List String :=
  reqs.foldr
    (fun r acc =>
      match r with
      | SyncRequest.batch _ ms => ms.map (·.externalId) ++ acc
      | _ => acc)
    []

/-- C8 counterexample: a `session_fork` event arriving while uninitialized
(no active `SessionState`) is *not* a no-op — the handler has no
`if (!state) return` guard (`state?.externalId` just yields no parent): it
installs a fresh state and issues two session syncs. The same applies after
shutdown, since the orchestrator represents both as the absence of a state. -/
theorem claim_C8_counterexample :
    ((step cfg1 none (PiEvent.sessionFork ctx2)).1).isSome = true ∧
    ((step cfg1 none (PiEvent.sessionFork ctx2)).2).length = 2 :=
  ⟨rfl, rfl⟩

/-- C8 (amended): an input, turn-end, model-select, or shutdown event
arriving with no active `SessionState` (uninitialized or after shutdown)
leaves the state unchanged and issues no sync request; `session_start` and
`session_fork` are the exceptions — both install a fresh state and sync
(see the counterexample). -/
theorem claim_C8_amended (cfg : Config) (ctx : Ctx) (m : BranchMsg)
    (trs : List ToolResultMessageLike) (mi : ModelInfo) (source text : String) :
    step cfg none (PiEvent.input source text ctx) = (none, []) ∧
    step cfg none (PiEvent.turnEnd m trs ctx) = (none, []) ∧
    step cfg none (PiEvent.modelSelect mi) = (none, []) ∧
    step cfg none (PiEvent.sessionShutdown ctx) = (none, []) :=
  ⟨rfl, rfl, rfl, rfl⟩

theorem applyOps_accumulators (ops : List StateOp) (s : SessionState)
    (h : ∀ op ∈ ops, usageNonNeg op) :
    s.promptTokens ≤ (applyOps s ops).promptTokens ∧
    s.completionTokens ≤ (applyOps s ops).completionTokens ∧
    s.cost ≤ (applyOps s ops).cost ∧
    s.messageCount ≤ (applyOps s ops).messageCount ∧
    s.toolCallCount ≤ (applyOps s ops).toolCallCount ∧
    (applyOps s ops).messageCount = s.messageCount + (countMsgIncrements ops : Int) := by
  induction ops generalizing s with
  | nil => simp [applyOps, countMsgIncrements]
  | cons op ops ih =>
      have hop := h op (List.mem_cons_self _ _)
      have ihs := ih (applyOp s op) (fun o ho => h o (List.mem_cons_of_mem _ ho))
      have happ : applyOps s (op :: ops) = applyOps (applyOp s op) ops := rfl
      rw [happ]
      rcases ihs with ⟨i1, i2, i3, i4, i5, i6⟩
      cases op with
      | updateUsage u =>
          rcases hop with ⟨hi, ho, hc⟩
          refine ⟨le_trans ?_ i1, le_trans ?_ i2, le_trans ?_ i3, le_trans ?_ i4,
            le_trans ?_ i5, ?_⟩
          · simp only [applyOp, SessionState.updateUsage]
            linarith
          · simp only [applyOp, SessionState.updateUsage]
            linarith
          · simp only [applyOp, SessionState.updateUsage]
            linarith
          · simp [applyOp, SessionState.updateUsage]
          · simp [applyOp, SessionState.updateUsage]
          · rw [i6]
            simp [applyOp, SessionState.updateUsage, countMsgIncrements, List.countP_cons]
      | incrementMessageCount =>
          refine ⟨le_trans ?_ i1, le_trans ?_ i2, le_trans ?_ i3, le_trans ?_ i4,
            le_trans ?_ i5, ?_⟩
          · simp [applyOp, SessionState.incrementMessageCount]
          · simp [applyOp, SessionState.incrementMessageCount]
          · simp [applyOp, SessionState.incrementMessageCount]
          · simp only [applyOp, SessionState.incrementMessageCount]
            linarith
          · simp [applyOp, SessionState.incrementMessageCount]
          · rw [i6]
            simp only [applyOp, SessionState.incrementMessageCount, countMsgIncrements,
              List.countP_cons]
            push_cast
            ring
      | incrementToolCallCount n =>
          refine ⟨le_trans ?_ i1, le_trans ?_ i2, le_trans ?_ i3, le_trans ?_ i4,
            le_trans ?_ i5, ?_⟩
          · simp [applyOp, SessionState.incrementToolCallCount]
          · simp [applyOp, SessionState.incrementToolCallCount]
          · simp [applyOp, SessionState.incrementToolCallCount]
          · simp [applyOp, SessionState.incrementToolCallCount]
          · simp only [applyOp, SessionState.incrementToolCallCount]
            have : (0 : Int) ≤ (n : Int) := Int.natCast_nonneg n
            linarith
          · rw [i6]
            simp [applyOp, SessionState.incrementToolCallCount, countMsgIncrements,
              List.countP_cons]
      | updateModel m =>
          refine ⟨le_trans ?_ i1, le_trans ?_ i2, le_trans ?_ i3, le_trans ?_ i4,
            le_trans ?_ i5, ?_⟩
          · simp [applyOp, SessionState.updateModel]
          · simp [applyOp, SessionState.updateModel]
          · simp [applyOp, SessionState.updateModel]
          · simp [applyOp, SessionState.updateModel]
          · simp [applyOp, SessionState.updateModel]
          · rw [i6]
            simp [applyOp, SessionState.updateModel, countMsgIncrements, List.countP_cons]

/-- C9: when every applied usage delta has non-negative input, output and
cost, no sequence of `SessionState` operations decreases `promptTokens`,
`completionTokens`, `cost`, `messageCount` or `toolCallCount`; the
`messageCount` after a sequence equals the starting count plus the number
of `incrementMessageCount` operations (so after N synced messages it is N),
and the functional-revision `updateSessionUsage` coincides with
`SessionState.updateUsage`. -/
theorem claim_C9 (s : SessionState) (ops : List StateOp)
    (h : ∀ op ∈ ops, usageNonNeg op) :
    s.promptTokens ≤ (applyOps s ops).promptTokens ∧
    s.completionTokens ≤ (applyOps s ops).completionTokens ∧
    s.cost ≤ (applyOps s ops).cost ∧
    s.messageCount ≤ (applyOps s ops).messageCount ∧
    s.toolCallCount ≤ (applyOps s ops).toolCallCount ∧
    (applyOps s ops).messageCount = s.messageCount + (countMsgIncrements ops : Int) ∧
    (∀ u, updateSessionUsage s u = s.updateUsage u) := by
  obtain ⟨a, b, c, d, e, f⟩ := applyOps_accumulators ops s h
  exact ⟨a, b, c, d, e, f, fun u => rfl⟩

/-- A concrete operation sequence for the C9 witness. -/
def c9Ops : List StateOp :=
  [StateOp.updateUsage { input := 1, output := 2, costTotal := 3 },
    StateOp.incrementMessageCount,
    StateOp.incrementToolCallCount 2,
    StateOp.updateModel { id := "m", provider := "p" },
    StateOp.incrementMessageCount]

/-- C9 witness: the non-negativity hypothesis holds for `c9Ops` and the
accumulator conclusions follow at that concrete sequence. -/
theorem claim_C9_witness :
    (∀ op ∈ c9Ops, usageNonNeg op) ∧
    (applyOps (SessionState.create "s" "/p" none none 0) c9Ops).messageCount =
      (SessionState.create "s" "/p" none none 0).messageCount +
        (countMsgIncrements c9Ops : Int) ∧
    (SessionState.create "s" "/p" none none 0).cost ≤
      (applyOps (SessionState.create "s" "/p" none none 0) c9Ops).cost := by
  have h := claim_C9 (SessionState.create "s" "/p" none none 0) c9Ops (by decide)
  exact ⟨by decide, h.2.2.2.2.2.1, h.2.2.1⟩

/-- C1 (evaluation of the code at the failing input): replaying a forked
branch that contains two user messages generates the *same* external id
`child-sess-user-0` for both batch messages, because the fork handler calls
`generateMessageId` while `messageCount` is still `0` for every replayed
message (`state.messageCount = msgCount` only runs after the loop) — so
the id list of the issued batch request is not duplicate-free, violating
the claimed invariant. -/
theorem claim_C1 :
    batchMessageIds ((step cfg1 (some parent1) (PiEvent.sessionFork ctx1)).2) =
      ["child-sess-user-0", "child-sess-user-0"] ∧
    ((step cfg1 (some parent1) (PiEvent.sessionFork ctx1)).2).length = 3 :=
  ⟨rfl, rfl⟩

end PiOpensync
